import Mathlib

/-!
Shallow embedding of `unreal_engine_docset.py`, the generator turning the
Unreal Engine HTML documentation archive into a Dash docset.  Pure string
manipulation is embedded over `List Char`; filesystem existence is an
explicit predicate `fs : String → Bool`; the lxml parser is an oracle
mapping the attempt index to an outcome.
-/

/-- Dash documentation entry (dataclass `Entry`): name, path, entry type.
Equality is field-wise, as for a frozen Python dataclass. -/
structure Entry where
  name : String
  path : String
  type : String
deriving DecidableEq

/-- API information for an Unreal Engine object (dataclass `ApiInformation`).
All three fields are declared optional in the source. -/
structure ApiInformation where
  name : Option String
  ue_type : Option String
  dash_type : Option String
deriving DecidableEq

/-- An injected `<a>` element: its `class` attribute and `name` attribute. -/
structure AnchorElem where
  cls : String
  attr : String
deriving DecidableEq

/-- `MAPPING_API_TYPE_TO_ENTRY_TYPE`: ordered association list, mirroring the
insertion order of the Python dict (Python dicts preserve insertion order). -/
def MAPPING_API_TYPE_TO_ENTRY_TYPE : List (String × String) :=
  [("class", "Class"),
   ("UCLASS", "Class"),
   ("struct", "Struct"),
   ("USTRUCT", "Struct"),
   ("union", "Union")]

/-- Does `t` start with pattern `p` (char lists)? -/
def listStartsWith : List Char → List Char → Bool
  | [], _ => true
  | _ :: _, [] => false
  | p :: ps, t :: ts => p == t && listStartsWith ps ts

/-- Does `text` contain `pat` as a contiguous substring (char lists)? -/
def listContainsSub (pat : List Char) : List Char → Bool
  | [] => listStartsWith pat []
  | t :: ts => listStartsWith pat (t :: ts) || listContainsSub pat ts

/-- `re.search(pat, text)` for a pattern with no regex metacharacters is a
substring test; this models line 471 for literal symbol names. -/
def reSearchLiteral (pat text : String) : Bool :=
  listContainsSub pat.data text.data

/-- Python `f"{x}"` on an optional string: `None` prints as `"None"`. -/
def pyOptStr : Option String → String
  | none => "None"
  | some s => s

/-- Python `name.split("::")` (line 549), specialised to the separator the
source uses; greedy leftmost non-overlapping split, as in Python. -/
def splitOnColonColon : List Char → List (List Char)
  | [] => [[]]
  | [c] => [[c]]
  | c1 :: c2 :: cs =>
    if c1 == ':' && c2 == ':' then
      [] :: splitOnColonColon cs
    else
      match splitOnColonColon (c2 :: cs) with
      | [] => [[c1]]
      | s :: ss => (c1 :: s) :: ss

/-- `collected_name.split("::")[-1]` (line 549): the last `::` segment. -/
def localAnchorName (s : String) : String :=
  String.mk ((splitOnColonColon s.data).getLastD [])

/-- Python `html.escape` on one character (default `quote=True`). -/
def htmlEscapeChar (c : Char) : List Char :=
  if c == '&' then "&amp;".data
  else if c == '<' then "&lt;".data
  else if c == '>' then "&gt;".data
  else if c == '"' then "&quot;".data
  else if c == Char.ofNat 39 then "&#x27;".data
  else [c]

/-- Python `html.escape` (line 562). -/
def htmlEscape (s : String) : String :=
  String.mk (s.data.flatMap htmlEscapeChar)

/-- Parsed page content the classifier looks at: the text nodes of
`h1[@id="H1TitleId"]` and the text of the `div.simplecode_api/p` blocks. -/
structure PageXml where
  h1TitleTexts : List String
  simplecodeTexts : List String
deriving DecidableEq

/-- Result of a computation that may raise, as Python functions do. -/
inductive PyResult (α : Type) where
  | ok (val : α)
  | stopIteration
deriving DecidableEq

/-- `collect_api_name_and_syntax` (lines 424-448): `next(iter(...))` on the
title text nodes raises `StopIteration` when none exist; the syntax is the
newline-join of the syntax block texts. -/
def collect_api_name_and_syntax (xml : PageXml) : PyResult (String × String) :=
  match xml.h1TitleTexts with
  | [] => PyResult.stopIteration
  | t :: _ => PyResult.ok (t, String.intercalate "\n" xml.simplecodeTexts)

/-- The `for api_type, entry_type in MAPPING... :` loop of
`collect_api_information` (lines 469-478): first match wins, fallback is
`("object", "Object")`. -/
def classify_loop (api_name apiSynText : String) :
    List (String × String) → ApiInformation
  | [] => ⟨some api_name, some "object", some "Object"⟩
  | (t, e) :: rest =>
    if reSearchLiteral (t ++ " " ++ api_name) apiSynText then
      ⟨some api_name, some t, some e⟩
    else
      classify_loop api_name apiSynText rest

/-- `collect_api_information` (lines 451-478). -/
def collect_api_information (xml : PageXml) : PyResult ApiInformation :=
  match collect_api_name_and_syntax xml with
  | PyResult.stopIteration => PyResult.stopIteration
  | PyResult.ok (api_name, apiSynText) =>
    PyResult.ok (classify_loop api_name apiSynText MAPPING_API_TYPE_TO_ENTRY_TYPE)

/-- Does `cs` end with `suffix`? -/
def listEndsWith (cs suffix : List Char) : Bool :=
  listStartsWith suffix.reverse cs.reverse

/-- `re.sub(r"\\?/?index.html$", "", parent)` (line 179): strip a trailing
`index.html` together with an optional preceding slash and backslash. -/
def stripIndexHtml (cs : List Char) : List Char :=
  if listEndsWith cs ('\\' :: '/' :: "index.html".data) then
    cs.take (cs.length - 12)
  else if listEndsWith cs ('\\' :: "index.html".data) then
    cs.take (cs.length - 11)
  else if listEndsWith cs ('/' :: "index.html".data) then
    cs.take (cs.length - 11)
  else if listEndsWith cs "index.html".data then
    cs.take (cs.length - 10)
  else
    cs

/-- `join_path` (lines 162-181). -/
def join_path (parent nm : String) : String :=
  String.mk (stripIndexHtml parent.data) ++ "/" ++ nm

/-- `collector_cpp_default` (lines 222-259).  The filesystem is the
predicate `fs`; `nameAt p` abstracts
`collect_api_information(read_xml_file(p)).name` rendered as the string the
entry receives. -/
def collector_cpp_default (fs : String → Bool) (nameAt : String → String)
    (hrefs : List String) (html_path : String) : List (String × String) :=
  match hrefs with
  | [] => []
  | href :: rest =>
    let collected_path := join_path html_path href
    if fs collected_path then
      (nameAt collected_path, collected_path) ::
        collector_cpp_default fs nameAt rest html_path
    else
      collector_cpp_default fs nameAt rest html_path

/-- `collector_cpp_nohref` (lines 262-294): elements are given by their
`text_content()`; the parent qualification fires whenever
`parent_api_information.ue_type is not None`. -/
def collector_cpp_nohref (elementTexts : List String)
    (parent : ApiInformation) (html_path : String) : List (String × String) :=
  match elementTexts with
  | [] => []
  | txt :: rest =>
    let name := if parent.ue_type.isSome then pyOptStr parent.name ++ "." ++ txt else txt
    (name, html_path ++ "#" ++ name) :: collector_cpp_nohref rest parent html_path

/-- Outcome of one lxml parse attempt inside `read_xml_file`: success, an
`etree.ParserError` (the only exception the `except` clause catches), or a
non-parse error such as `FileNotFoundError` from `open`. -/
inductive ReadAttempt (α : Type) where
  | ok (t : α)
  | parseError
  | ioError
deriving DecidableEq

/-- Observable outcome of `read_xml_file`: a parsed tree, the final
`RuntimeError` after the retry budget is exhausted, or a propagated
non-parse error. -/
inductive ReadOutcome (α : Type) where
  | parsed (t : α)
  | runtimeFailure
  | propagated
deriving DecidableEq

/-- The `while i < attempts` loop of `read_xml_file` (lines 204-219), with
`remaining = attempts - i`.  The oracle gives the outcome of attempt `i`;
the second component counts the `time.sleep(0.1)` calls performed. -/
def read_xml_loop (oracle : Nat → ReadAttempt α) (i : Nat) :
    Nat → ReadOutcome α × Nat
  | 0 => (ReadOutcome.runtimeFailure, 0)
  | remaining + 1 =>
    match oracle i with
    | ReadAttempt.ok t => (ReadOutcome.parsed t, 0)
    | ReadAttempt.parseError =>
      let r := read_xml_loop oracle (i + 1) remaining
      (r.1, r.2 + 1)
    | ReadAttempt.ioError => (ReadOutcome.propagated, 0)

/-- `read_xml_file` (lines 184-219), default retry budget 10. -/
def read_xml_file (oracle : Nat → ReadAttempt α) (attempts : Nat := 10) :
    ReadOutcome α × Nat :=
  read_xml_loop oracle 0 attempts

/-- Mutable state threaded through the collector loop of
`process_cpp_html_file`: the `entries` list (shared across collectors) and
the anchor elements inserted into the page so far. -/
structure ProcState where
  entries : List Entry
  injected : List AnchorElem
deriving DecidableEq

/-- The inner `for i, collection in enumerate(...)` loop of
`process_cpp_html_file` (lines 528-572) for one collector: `fs` is file
existence, `refine` abstracts
`collect_api_information(read_xml_file(p)).dash_type` for the Class
refinement, `inject` is `add_dash_anchors and not has_dash_anchors`, and
`anchors` is the per-collector occurrence list (line 527). -/
def process_cpp_pairs (fs : String → Bool) (refine : String → String)
    (inject : Bool) (ctype : String) (pairs : List (String × String))
    (anchors : List String) (st : ProcState) : ProcState :=
  match pairs with
  | [] => st
  | (collected_name, collected_html_path) :: rest =>
    if fs collected_html_path then
      let collected_type :=
        if ctype == "Class" then refine collected_html_path else ctype
      if inject then
        let anchor_name := localAnchorName collected_name
        let suffix :=
          if anchors.contains anchor_name then
            " (Overload " ++ toString (anchors.count anchor_name) ++ ")"
          else ""
        let elem : AnchorElem :=
          ⟨"dashAnchor",
           "//apple_ref/cpp/" ++ collected_type ++ "/" ++
             htmlEscape (anchor_name ++ suffix)⟩
        process_cpp_pairs fs refine inject ctype rest (anchors ++ [anchor_name])
          ⟨st.entries ++ [⟨collected_name, collected_html_path, collected_type⟩],
           st.injected ++ [elem]⟩
      else
        process_cpp_pairs fs refine inject ctype rest anchors
          ⟨st.entries ++ [⟨collected_name, collected_html_path, collected_type⟩],
           st.injected⟩
    else
      process_cpp_pairs fs refine inject ctype rest anchors st

/-- One run of `process_cpp_html_file` over a page, abstracted to what the
collector table produced: `dashAnchorCount` is
`len(xml.xpath('.//a[@class="dashAnchor"]'))` and `collected` pairs each
collector entry type with the (name, path) list its processor returned. -/
structure PageRun where
  dashAnchorCount : Nat
  collected : List (String × List (String × String))
deriving DecidableEq

/-- `process_cpp_html_file` (lines 481-577): the outer `for collector in
collectors` loop, resetting `anchors` to `[]` for each collector and
threading the entry list through; returns the entries and the anchor
elements inserted into the page. -/
def process_cpp_html_file (fs : String → Bool) (refine : String → String)
    (add_dash_anchors : Bool) (page : PageRun) : List Entry × List AnchorElem :=
  let has_dash_anchors := page.dashAnchorCount != 0
  let st := page.collected.foldl
    (fun st c =>
      process_cpp_pairs fs refine (add_dash_anchors && !has_dash_anchors)
        c.1 c.2 [] st)
    ⟨[], []⟩
  (st.entries, st.injected)

/-- `process_cpp_docset` aggregation (lines 621-629):
`set(chain(*per_file_results))`, over the per-file entry lists returned by
`process_cpp_html_file`. -/
def process_cpp_docset (results : List (List Entry)) : Finset Entry :=
  results.flatten.toFinset

/-- `generate_docset` manifest mapping construction (lines 922-936),
including the dead `elif docset_type == "cpp"` branch exactly as written. -/
def plist_mapping (docset_type docset_name docset_label online : String) :
    List (String × String × Option String) :=
  let mapping : List (String × String × Option String) :=
    [("CFBundleIdentifier", "string", some docset_name),
     ("CFBundleName", "string", some docset_label),
     ("DashDocSetDeclaredInStyle", "string", some "originalName"),
     ("DashDocSetFallbackURL", "string", some online),
     ("DashDocSetFamily", "string", some "python"),
     ("DocSetPlatformFamily", "string", some "Unreal Engine"),
     ("isDashDocset", "true", none),
     ("isJavaScriptEnabled", "true", none)]
  if docset_type == "cpp" then
    mapping ++ [("dashIndexFilePath", "string", some "en-US/API/index.html")]
  else if docset_type == "cpp" then
    mapping ++ [("dashIndexFilePath", "string", some "en-US/BluepringAPI/index.html")]
  else
    mapping

/-- Disambiguated anchor label for local name `a`, given the local names
`prev` already seen by the current collector. -/
def overloadLabel (prev : List String) (a : String) : String :=
  a ++ (if prev.contains a then " (Overload " ++ toString (prev.count a) ++ ")" else "")

/-- Anchor labels for a list of local names, the occurrence history
starting at `prev`. -/
def overloadLabels (prev : List String) : List String → List String
  | [] => []
  | a :: rest => overloadLabel prev a :: overloadLabels (prev ++ [a]) rest

/-- Dash entry type a survivor pair receives (lines 537-544). -/
def collectedTypeOf (refine : String → String) (ctype : String)
    (pr : String × String) : String :=
  if ctype == "Class" then refine pr.2 else ctype

/-- Specification of the entries one collector contributes: the candidate
pairs surviving the existence check, with the refined entry type. -/
def collectorEntriesSpec (fs : String → Bool) (refine : String → String)
    (ctype : String) (pairs : List (String × String)) : List Entry :=
  (pairs.filter (fun pr => fs pr.2)).map
    (fun pr => ⟨pr.1, pr.2, collectedTypeOf refine ctype pr⟩)

/-- Anchor elements one collector inserts, given the occurrence history
`anchors` it starts from: the surviving candidates labelled by
`overloadLabels`. -/
def collectorAnchorSpecFrom (fs : String → Bool) (refine : String → String)
    (ctype : String) (anchors : List String)
    (pairs : List (String × String)) : List AnchorElem :=
  let survivors := pairs.filter (fun pr => fs pr.2)
  List.zipWith
    (fun (pr : String × String) label =>
      (⟨"dashAnchor",
        "//apple_ref/cpp/" ++ collectedTypeOf refine ctype pr ++
          "/" ++ htmlEscape label⟩ : AnchorElem))
    survivors
    (overloadLabels anchors (survivors.map (fun pr => localAnchorName pr.1)))

/-- Specification of the anchor elements one collector inserts, starting
from an empty occurrence history, as the source does per collector. -/
def collectorAnchorSpec (fs : String → Bool) (refine : String → String)
    (ctype : String) (pairs : List (String × String)) : List AnchorElem :=
  collectorAnchorSpecFrom fs refine ctype [] pairs

theorem classify_loop_name_eq (api_name apiSynText : String)
    (l : List (String × String)) :
    (classify_loop api_name apiSynText l).name = some api_name := by
  induction l with
  | nil => rfl
  | cons p rest ih =>
    obtain ⟨t, e⟩ := p
    by_cases h : reSearchLiteral (t ++ " " ++ api_name) apiSynText = true
    · simp [classify_loop, h]
    · simp only [Bool.not_eq_true] at h
      simp [classify_loop, h, ih]

theorem classify_loop_ue_isSome (api_name apiSynText : String)
    (l : List (String × String)) :
    (classify_loop api_name apiSynText l).ue_type.isSome = true := by
  induction l with
  | nil => rfl
  | cons p rest ih =>
    obtain ⟨t, e⟩ := p
    by_cases h : reSearchLiteral (t ++ " " ++ api_name) apiSynText = true
    · simp [classify_loop, h]
    · simp only [Bool.not_eq_true] at h
      simp [classify_loop, h, ih]

theorem classify_loop_of_no_match (api_name apiSynText : String)
    (l : List (String × String))
    (h : ∀ p ∈ l, reSearchLiteral (p.1 ++ " " ++ api_name) apiSynText = false) :
    classify_loop api_name apiSynText l =
      ⟨some api_name, some "object", some "Object"⟩ := by
  induction l with
  | nil => rfl
  | cons p rest ih =>
    obtain ⟨t, e⟩ := p
    have ht := h (t, e) (List.mem_cons_self _ _)
    simp only [classify_loop, ht]
    simp only [Bool.false_eq_true, if_false]
    exact ih fun q hq => h q (List.mem_cons_of_mem _ hq)

theorem classify_loop_first_match (api_name apiSynText : String)
    (pre post : List (String × String)) (t e : String)
    (hpre : ∀ p ∈ pre, reSearchLiteral (p.1 ++ " " ++ api_name) apiSynText = false)
    (ht : reSearchLiteral (t ++ " " ++ api_name) apiSynText = true) :
    classify_loop api_name apiSynText (pre ++ (t, e) :: post) =
      ⟨some api_name, some t, some e⟩ := by
  induction pre with
  | nil => simp [classify_loop, ht]
  | cons p rest ih =>
    obtain ⟨t', e'⟩ := p
    have ht' := hpre (t', e') (List.mem_cons_self _ _)
    simp only [List.cons_append, classify_loop, ht']
    simp only [Bool.false_eq_true, if_false]
    exact ih fun q hq => hpre q (List.mem_cons_of_mem _ hq)

/-- C4: the classifier tests the declaration text against
`"<sourceKind> <symbolName>"` for the source kinds in the fixed order
class, UCLASS, struct, USTRUCT, union, first match winning; declaration
text `"class Foo : public Bar"` with symbol name `Foo` classifies as
sourceKind `"class"`, entryKind `"Class"`, and with no keyword match the
result is sourceKind `"object"`, entryKind `"Object"`. -/
theorem C4_classifier_first_match :
    (collect_api_information ⟨["Foo"], ["class Foo : public Bar"]⟩ =
        PyResult.ok ⟨some "Foo", some "class", some "Class"⟩)
    ∧ MAPPING_API_TYPE_TO_ENTRY_TYPE =
        [("class", "Class"), ("UCLASS", "Class"), ("struct", "Struct"),
         ("USTRUCT", "Struct"), ("union", "Union")]
    ∧ (∀ api_name apiSynText (pre post : List (String × String)) t e,
        (∀ p ∈ pre, reSearchLiteral (p.1 ++ " " ++ api_name) apiSynText = false) →
        reSearchLiteral (t ++ " " ++ api_name) apiSynText = true →
        classify_loop api_name apiSynText (pre ++ (t, e) :: post) =
          ⟨some api_name, some t, some e⟩)
    ∧ (∀ api_name apiSynText,
        (∀ p ∈ MAPPING_API_TYPE_TO_ENTRY_TYPE,
            reSearchLiteral (p.1 ++ " " ++ api_name) apiSynText = false) →
        classify_loop api_name apiSynText MAPPING_API_TYPE_TO_ENTRY_TYPE =
          ⟨some api_name, some "object", some "Object"⟩) := by
  refine ⟨by decide, rfl, ?_, ?_⟩
  · intro api_name apiSynText pre post t e hpre ht
    exact classify_loop_first_match api_name apiSynText pre post t e hpre ht
  · intro api_name apiSynText h
    exact classify_loop_of_no_match api_name apiSynText _ h

theorem C4_witness :
    classify_loop "Bar" "struct Bar : public Foo" MAPPING_API_TYPE_TO_ENTRY_TYPE =
      ⟨some "Bar", some "struct", some "Struct"⟩ :=
  C4_classifier_first_match.2.2.1 "Bar" "struct Bar : public Foo"
    [("class", "Class"), ("UCLASS", "Class")]
    [("USTRUCT", "Struct"), ("union", "Union")]
    "struct" "Struct" (by decide) (by decide)

/-- C9: a parsed page with no `h1` title text makes classification fail
with `StopIteration` rather than return an `ApiInformation` with an absent
name; every successfully returned `ApiInformation` has a present name, and
a non-empty one whenever the page's title text nodes are non-empty. -/
theorem C9_classifier_name_present (xml : PageXml) :
    (xml.h1TitleTexts = [] →
        collect_api_information xml = PyResult.stopIteration)
    ∧ (∀ info, collect_api_information xml = PyResult.ok info →
        info.name.isSome = true ∧
          ((∀ t ∈ xml.h1TitleTexts, t ≠ "") → info.name ≠ some "")) := by
  constructor
  · intro h
    simp [collect_api_information, collect_api_name_and_syntax, h]
  · intro info hok
    cases hx : xml.h1TitleTexts with
    | nil =>
      simp [collect_api_information, collect_api_name_and_syntax, hx] at hok
    | cons t ts =>
      simp only [collect_api_information, collect_api_name_and_syntax, hx] at hok
      cases hok with
      | refl =>
        refine ⟨?_, ?_⟩
        · rw [classify_loop_name_eq]
          rfl
        · intro hne
          rw [classify_loop_name_eq]
          have : t ≠ "" := hne t (hx ▸ List.mem_cons_self t ts)
          simpa using this

theorem read_xml_loop_runtime_iff {α : Type} (oracle : Nat → ReadAttempt α) :
    ∀ n i, ((read_xml_loop oracle i n).1 = ReadOutcome.runtimeFailure ↔
      ∀ j < n, oracle (i + j) = ReadAttempt.parseError) := by
  intro n
  induction n with
  | zero =>
    intro i
    simp [read_xml_loop]
  | succ m ih =>
    intro i
    cases h : oracle i with
    | ok t =>
      simp only [read_xml_loop, h]
      constructor
      · intro hc
        exact absurd hc (by simp)
      · intro hall
        have h0 := hall 0 (Nat.succ_pos m)
        rw [Nat.add_zero] at h0
        rw [h] at h0
        exact absurd h0 (by simp)
    | parseError =>
      simp only [read_xml_loop, h]
      rw [ih (i + 1)]
      constructor
      · intro hall j hj
        cases j with
        | zero => simpa using h
        | succ j' =>
          have hx := hall j' (Nat.lt_of_succ_lt_succ hj)
          rwa [show i + 1 + j' = i + (j' + 1) by omega] at hx
      · intro hall j hj
        have := hall (j + 1) (Nat.succ_lt_succ hj)
        rwa [show i + 1 + j = i + (j + 1) by omega]
    | ioError =>
      simp only [read_xml_loop, h]
      constructor
      · intro hc
        exact absurd hc (by simp)
      · intro hall
        have h0 := hall 0 (Nat.succ_pos m)
        rw [Nat.add_zero] at h0
        rw [h] at h0
        exact absurd h0 (by simp)

theorem read_xml_loop_success {α : Type} (oracle : Nat → ReadAttempt α) :
    ∀ k i n (t : α), k < n →
      (∀ j < k, oracle (i + j) = ReadAttempt.parseError) →
      oracle (i + k) = ReadAttempt.ok t →
      read_xml_loop oracle i n = (ReadOutcome.parsed t, k) := by
  intro k
  induction k with
  | zero =>
    intro i n t hn hpre hok
    cases n with
    | zero => omega
    | succ m =>
      rw [Nat.add_zero] at hok
      simp [read_xml_loop, hok]
  | succ k' ih =>
    intro i n t hn hpre hok
    cases n with
    | zero => omega
    | succ m =>
      have h0 : oracle i = ReadAttempt.parseError := by
        have := hpre 0 (Nat.succ_pos k')
        rwa [Nat.add_zero] at this
      have hrec := ih (i + 1) m t (Nat.lt_of_succ_lt_succ hn)
        (fun j hj => by
          have := hpre (j + 1) (Nat.succ_lt_succ hj)
          rwa [show i + 1 + j = i + (j + 1) by omega])
        (by rwa [show i + 1 + k' = i + (k' + 1) by omega])
      simp [read_xml_loop, h0, hrec]

/-- C6: `read_xml_file` raises its final `RuntimeError` exactly when all 10
attempts fail with a transient parse error, and when the attempts before
attempt `k < 10` fail transiently and attempt `k` parses, it returns that
parsed tree (after `k` sleeps), raising nothing. -/
theorem C6_read_retry_budget {α : Type} (oracle : Nat → ReadAttempt α) :
    ((read_xml_file oracle 10).1 = ReadOutcome.runtimeFailure ↔
        ∀ i < 10, oracle i = ReadAttempt.parseError)
    ∧ (∀ k (t : α), k < 10 →
        (∀ j < k, oracle j = ReadAttempt.parseError) →
        oracle k = ReadAttempt.ok t →
        read_xml_file oracle 10 = (ReadOutcome.parsed t, k)) := by
  constructor
  · rw [read_xml_file, read_xml_loop_runtime_iff oracle 10 0]
    simp
  · intro k t hk hpre hok
    rw [read_xml_file]
    exact read_xml_loop_success oracle k 0 10 t hk
      (fun j hj => by simpa using hpre j hj) (by simpa using hok)

theorem C6_witness :
    read_xml_file
        (fun j => if j < 3 then ReadAttempt.parseError else ReadAttempt.ok 7) 10 =
      (ReadOutcome.parsed 7, 3) :=
  (C6_read_retry_budget _).2 3 7 (by decide)
    (by decide) (by decide)

/-- C10: a read attempt failing for a non-parse reason (such as a missing
file) propagates immediately on the first attempt, with no retry and no
sleep, for any positive retry budget. -/
theorem C10_nonparse_error_propagates {α : Type} (oracle : Nat → ReadAttempt α)
    (h : oracle 0 = ReadAttempt.ioError) :
    ∀ attempts, 0 < attempts →
      read_xml_file oracle attempts = (ReadOutcome.propagated, 0) := by
  intro attempts hpos
  cases attempts with
  | zero => omega
  | succ m => simp [read_xml_file, read_xml_loop, h]

theorem C10_witness :
    read_xml_file (fun _ => (ReadAttempt.ioError : ReadAttempt Nat)) 10 =
      (ReadOutcome.propagated, 0) :=
  C10_nonparse_error_propagates _ rfl 10 (by decide)

/-- C8: for the blueprint flavor the manifest mapping contains no
`dashIndexFilePath` key at all (the `elif docset_type == "cpp"` branch that
would add the Blueprint index path is dead), while the cpp flavor does get
its `en-US/API/index.html` index entry; this contradicts the claim that
every supported flavor receives an index file path. -/
theorem C8_plist_missing_blueprint_index :
    ((plist_mapping "blueprint" "UnrealEngineBlueprint.docset"
          "Unreal Engine Blueprint Docset"
          "https://docs.unrealengine.com/en-US/BlueprintAPI").all
        (fun kv => kv.1 != "dashIndexFilePath")) = true
    ∧ ("dashIndexFilePath", "string", some "en-US/API/index.html") ∈
        plist_mapping "cpp" "UnrealEngineCpp.docset" "Unreal Engine C++ Docset"
          "https://docs.unrealengine.com/en-US/API" := by decide

theorem process_cpp_pairs_inject_spec (fs : String → Bool)
    (refine : String → String) (ctype : String) :
    ∀ (pairs : List (String × String)) anchors st,
      process_cpp_pairs fs refine true ctype pairs anchors st =
        ⟨st.entries ++ collectorEntriesSpec fs refine ctype pairs,
         st.injected ++ collectorAnchorSpecFrom fs refine ctype anchors pairs⟩ := by
  intro pairs
  induction pairs with
  | nil =>
    intro anchors st
    cases st
    simp [process_cpp_pairs, collectorEntriesSpec, collectorAnchorSpecFrom]
  | cons pr rest ih =>
    intro anchors st
    obtain ⟨name, path⟩ := pr
    cases hf : fs path with
    | true =>
      simp only [process_cpp_pairs, hf, if_true]
      rw [ih]
      simp only [collectorEntriesSpec, collectorAnchorSpecFrom, List.filter_cons, hf,
        overloadLabels, overloadLabel, collectedTypeOf, List.append_assoc,
        List.map_cons, List.zipWith_cons_cons, List.singleton_append, if_true,
        List.cons_append, List.nil_append]
    | false =>
      simp only [process_cpp_pairs, hf, Bool.false_eq_true, if_false]
      rw [ih]
      simp only [collectorEntriesSpec, collectorAnchorSpecFrom, List.filter_cons, hf,
        Bool.false_eq_true, if_false]

theorem process_cpp_pairs_noinject_spec (fs : String → Bool)
    (refine : String → String) (ctype : String) :
    ∀ (pairs : List (String × String)) anchors st,
      process_cpp_pairs fs refine false ctype pairs anchors st =
        ⟨st.entries ++ collectorEntriesSpec fs refine ctype pairs,
         st.injected⟩ := by
  intro pairs
  induction pairs with
  | nil =>
    intro anchors st
    cases st
    simp [process_cpp_pairs, collectorEntriesSpec]
  | cons pr rest ih =>
    intro anchors st
    obtain ⟨name, path⟩ := pr
    cases hf : fs path with
    | true =>
      simp only [process_cpp_pairs, hf, if_true, Bool.false_eq_true, if_false]
      rw [ih]
      simp only [collectorEntriesSpec, List.filter_cons, hf, collectedTypeOf,
        List.append_assoc, List.map_cons, List.singleton_append, if_true,
        List.cons_append, List.nil_append]
    | false =>
      simp only [process_cpp_pairs, hf, Bool.false_eq_true, if_false]
      rw [ih]
      simp only [collectorEntriesSpec, List.filter_cons, hf,
        Bool.false_eq_true, if_false]

theorem process_cpp_foldl_inject (fs : String → Bool)
    (refine : String → String) :
    ∀ (collected : List (String × List (String × String))) st,
      collected.foldl
          (fun st c => process_cpp_pairs fs refine true c.1 c.2 [] st) st =
        ⟨st.entries ++
            collected.flatMap (fun c => collectorEntriesSpec fs refine c.1 c.2),
         st.injected ++
            collected.flatMap (fun c => collectorAnchorSpec fs refine c.1 c.2)⟩ := by
  intro collected
  induction collected with
  | nil =>
    intro st
    cases st
    simp
  | cons c cs ih =>
    intro st
    rw [List.foldl_cons, process_cpp_pairs_inject_spec, ih]
    simp [collectorAnchorSpec]

theorem process_cpp_foldl_noinject (fs : String → Bool)
    (refine : String → String) :
    ∀ (collected : List (String × List (String × String))) st,
      collected.foldl
          (fun st c => process_cpp_pairs fs refine false c.1 c.2 [] st) st =
        ⟨st.entries ++
            collected.flatMap (fun c => collectorEntriesSpec fs refine c.1 c.2),
         st.injected⟩ := by
  intro collected
  induction collected with
  | nil =>
    intro st
    cases st
    simp
  | cons c cs ih =>
    intro st
    rw [List.foldl_cons, process_cpp_pairs_noinject_spec, ih]
    simp

theorem process_cpp_html_file_eq (fs : String → Bool)
    (refine : String → String) (add : Bool) (page : PageRun) :
    process_cpp_html_file fs refine add page =
      (page.collected.flatMap (fun c => collectorEntriesSpec fs refine c.1 c.2),
       if add && !(page.dashAnchorCount != 0) then
         page.collected.flatMap (fun c => collectorAnchorSpec fs refine c.1 c.2)
       else []) := by
  cases hb : add && !(page.dashAnchorCount != 0) with
  | true =>
    simp only [process_cpp_html_file, hb, if_true]
    rw [process_cpp_foldl_inject]
    simp
  | false =>
    simp only [process_cpp_html_file, hb, Bool.false_eq_true, if_false]
    rw [process_cpp_foldl_noinject]
    simp

theorem filter_fs_idem (fs : String → Bool) (pairs : List (String × String)) :
    (pairs.filter (fun pr => fs pr.2)).filter (fun pr => fs pr.2) =
      pairs.filter (fun pr => fs pr.2) := by
  rw [List.filter_filter]
  simp [Bool.and_self]

theorem collectorEntriesSpec_filter (fs : String → Bool)
    (refine : String → String) (ctype : String)
    (pairs : List (String × String)) :
    collectorEntriesSpec fs refine ctype (pairs.filter (fun pr => fs pr.2)) =
      collectorEntriesSpec fs refine ctype pairs := by
  simp [collectorEntriesSpec, filter_fs_idem]

theorem collectorAnchorSpec_filter (fs : String → Bool)
    (refine : String → String) (ctype : String)
    (pairs : List (String × String)) :
    collectorAnchorSpec fs refine ctype (pairs.filter (fun pr => fs pr.2)) =
      collectorAnchorSpec fs refine ctype pairs := by
  simp [collectorAnchorSpec, collectorAnchorSpecFrom, filter_fs_idem]

/-- C1: a candidate pair whose target file does not exist produces no entry
and no anchor (dropping such pairs leaves the page processing unchanged);
every entry returned by the page processor has an existing path, the
default collector likewise only emits pairs with existing paths, and the
aggregated docset set only contains entries with existing paths. -/
theorem C1_entries_reference_existing_files :
    (∀ (fs : String → Bool) (refine : String → String) (add : Bool)
        (page : PageRun),
        (∀ e ∈ (process_cpp_html_file fs refine add page).1, fs e.path = true)
        ∧ process_cpp_html_file fs refine add page =
            process_cpp_html_file fs refine add
              ⟨page.dashAnchorCount,
               page.collected.map
                 (fun c => (c.1, c.2.filter (fun pr => fs pr.2)))⟩)
    ∧ (∀ (fs : String → Bool) (nameAt : String → String) hrefs html_path,
        ∀ pr ∈ collector_cpp_default fs nameAt hrefs html_path,
          fs pr.2 = true)
    ∧ (∀ (fs : String → Bool) (results : List (List Entry)),
        (∀ l ∈ results, ∀ e ∈ l, fs e.path = true) →
        ∀ e ∈ process_cpp_docset results, fs e.path = true) := by
  refine ⟨?_, ?_, ?_⟩
  · intro fs refine add page
    constructor
    · intro e he
      rw [process_cpp_html_file_eq] at he
      simp only [List.mem_flatMap, collectorEntriesSpec, List.mem_map,
        List.mem_filter] at he
      obtain ⟨c, _, pr, ⟨_, hfs⟩, rfl⟩ := he
      exact hfs
    · rw [process_cpp_html_file_eq, process_cpp_html_file_eq]
      simp only [List.flatMap_map, collectorEntriesSpec_filter,
        collectorAnchorSpec_filter]
  · intro fs nameAt hrefs html_path
    induction hrefs with
    | nil =>
      intro pr h
      simp [collector_cpp_default] at h
    | cons href rest ih =>
      intro pr h
      cases hf : fs (join_path html_path href) with
      | true =>
        simp only [collector_cpp_default, hf, if_true, List.mem_cons] at h
        rcases h with rfl | h
        · exact hf
        · exact ih pr h
      | false =>
        simp only [collector_cpp_default, hf, Bool.false_eq_true, if_false] at h
        exact ih pr h
  · intro fs results hall e he
    simp only [process_cpp_docset, List.mem_toFinset, List.mem_flatten] at he
    obtain ⟨l, hl, hel⟩ := he
    exact hall l hl e hel

theorem C1_witness :
    (fun s => s == "p") (Entry.mk "A" "p" "Function").path = true :=
  (C1_entries_reference_existing_files.1 (fun s => s == "p") (fun s => s) true
      ⟨0, [("Function", [("A", "p"), ("B", "q")])]⟩).1
    ⟨"A", "p", "Function"⟩ (by decide)

/-- C5: when a page already carries at least one Dash anchor, processing it
with anchor injection enabled inserts no anchor element at all. -/
theorem C5_no_duplicate_anchor_injection (fs : String → Bool)
    (refine : String → String) (page : PageRun)
    (h : page.dashAnchorCount ≠ 0) :
    (process_cpp_html_file fs refine true page).2 = [] := by
  rw [process_cpp_html_file_eq]
  have hb : (page.dashAnchorCount != 0) = true := by simpa using h
  simp [hb]

theorem C5_witness :
    (process_cpp_html_file (fun _ => true) (fun s => s) true
        ⟨1, [("Function", [("Foo", "p")])]⟩).2 = [] :=
  C5_no_duplicate_anchor_injection _ _ _ (by decide)

theorem overloadLabel_eq_count (hist : List String) (a : String) :
    overloadLabel hist a =
      (if hist.count a = 0 then a
       else a ++ " (Overload " ++ toString (hist.count a) ++ ")") := by
  unfold overloadLabel
  by_cases hm : a ∈ hist
  · have hc : hist.contains a = true := by simpa using hm
    have hz : hist.count a ≠ 0 := by
      simpa [List.count_eq_zero] using hm
    simp [hm, hz, String.append_assoc]
  · have hz : hist.count a = 0 := List.count_eq_zero.mpr hm
    simp [hm, hz, String.append_empty]

theorem overloadLabels_getD (names : List String) :
    ∀ (prev : List String) i, i < names.length →
      (overloadLabels prev names).getD i "" =
        overloadLabel (prev ++ names.take i) (names.getD i "") := by
  induction names with
  | nil =>
    intro prev i hi
    simp at hi
  | cons a rest ih =>
    intro prev i hi
    cases i with
    | zero =>
      simp [overloadLabels]
    | succ i' =>
      have hi' : i' < rest.length := by simpa using hi
      simp only [overloadLabels, List.getD_cons_succ, List.take_succ_cons]
      rw [ih (prev ++ [a]) i' hi']
      simp

/-- C2 counterexample: with two collectors each contributing one surviving
candidate of the same local name, on a page with no pre-existing Dash
anchors and injection enabled, the second injected anchor carries the bare
name again, not the claimed page-scoped " (Overload 1)" suffix: the
occurrence counter resets for every collector. -/
theorem C2_overload_counter_counterexample :
    (process_cpp_html_file (fun _ => true) (fun s => s) true
        ⟨0, [("Function", [("Foo", "p1")]), ("Function", [("Foo", "p2")])]⟩).2 =
      [⟨"dashAnchor", "//apple_ref/cpp/Function/Foo"⟩,
       ⟨"dashAnchor", "//apple_ref/cpp/Function/Foo"⟩]
    ∧ (⟨"dashAnchor", "//apple_ref/cpp/Function/Foo"⟩ : AnchorElem) ≠
        ⟨"dashAnchor", "//apple_ref/cpp/Function/" ++
          htmlEscape "Foo (Overload 1)"⟩ := by
  constructor
  · rfl
  · decide

/-- C2 amended: the overload occurrence counter is scoped to one collector
and reset for each collector of the table, not to the whole page: the
injected anchors are the concatenation over collectors of the labels
computed from an empty per-collector history, and within one collector the
i-th surviving occurrence of a local name carries " (Overload N)" where N
counts its earlier occurrences in that collector alone (bare when N = 0). -/
theorem C2_overload_counter_per_collector :
    (∀ (fs : String → Bool) (refine : String → String) (page : PageRun),
        page.dashAnchorCount = 0 →
        (process_cpp_html_file fs refine true page).2 =
          page.collected.flatMap
            (fun c => collectorAnchorSpec fs refine c.1 c.2))
    ∧ (∀ prev names, (overloadLabels prev names).length = names.length)
    ∧ (∀ (prev names : List String) i, i < names.length →
        (overloadLabels prev names).getD i "" =
          (if (prev ++ names.take i).count (names.getD i "") = 0 then
            names.getD i ""
           else
            names.getD i "" ++ " (Overload " ++
              toString ((prev ++ names.take i).count (names.getD i "")) ++ ")")) := by
  refine ⟨?_, ?_, ?_⟩
  · intro fs refine page h
    rw [process_cpp_html_file_eq]
    simp [h]
  · intro prev names
    induction names generalizing prev with
    | nil => rfl
    | cons a rest ih => simp [overloadLabels, ih]
  · intro prev names i hi
    rw [overloadLabels_getD names prev i hi, overloadLabel_eq_count]

theorem C2_witness :
    (process_cpp_html_file (fun _ => true) (fun s => s) true
        ⟨0, [("Function", [("f", "p"), ("f", "q")])]⟩).2 =
      [⟨"dashAnchor", "//apple_ref/cpp/Function/f"⟩,
       ⟨"dashAnchor", "//apple_ref/cpp/Function/" ++
         htmlEscape "f (Overload 1)"⟩] := by
  rw [C2_overload_counter_per_collector.1 (fun _ => true) (fun s => s)
    ⟨0, [("Function", [("f", "p"), ("f", "q")])]⟩ rfl]
  decide

theorem collector_cpp_nohref_of_isSome (parent : ApiInformation)
    (hp : parent.ue_type.isSome = true) :
    ∀ texts html_path, collector_cpp_nohref texts parent html_path =
      texts.map (fun txt =>
        (pyOptStr parent.name ++ "." ++ txt,
         html_path ++ "#" ++ (pyOptStr parent.name ++ "." ++ txt))) := by
  intro texts html_path
  induction texts with
  | nil => rfl
  | cons txt rest ih =>
    simp only [collector_cpp_nohref, hp, if_true, List.map_cons]
    rw [ih]

theorem collector_cpp_nohref_of_none (parent : ApiInformation)
    (hp : parent.ue_type = none) :
    ∀ texts html_path, collector_cpp_nohref texts parent html_path =
      texts.map (fun txt => (txt, html_path ++ "#" ++ txt)) := by
  intro texts html_path
  induction texts with
  | nil => rfl
  | cons txt rest ih =>
    simp only [collector_cpp_nohref, hp, Option.isSome_none, Bool.false_eq_true,
      if_false, List.map_cons]
    rw [ih]

/-- C3 counterexample: a page whose declaration text matches no keyword
classifies as sourceKind "object" — not a typed API object — yet the
no-href collector still qualifies the element text with the parent name,
where the claim requires the bare element text. -/
theorem C3_nohref_counterexample :
    collect_api_information ⟨["Foo"], []⟩ =
        PyResult.ok ⟨some "Foo", some "object", some "Object"⟩
      ∧ collector_cpp_nohref ["x"] ⟨some "Foo", some "object", some "Object"⟩
          "p.html" = [("Foo.x", "p.html#Foo.x")]
      ∧ ("Foo.x", "p.html#Foo.x") ≠ ("x", "p.html#x") := by
  refine ⟨by decide, by decide, by decide⟩

/-- C3 amended: the no-href collector qualifies the element text as
parentName.memberName whenever the parent ApiInformation has a present
(non-None) sourceKind — which the classifier always produces, its no-match
default being "object" — and yields the bare text only when the sourceKind
is None; in both cases the target is pagePath#name. -/
theorem C3_nohref_qualified_name :
    (∀ (xml : PageXml) info, collect_api_information xml = PyResult.ok info →
        info.ue_type.isSome = true ∧
        ∀ texts html_path,
          collector_cpp_nohref texts info html_path =
            texts.map (fun txt =>
              (pyOptStr info.name ++ "." ++ txt,
               html_path ++ "#" ++ (pyOptStr info.name ++ "." ++ txt))))
    ∧ (∀ (parent : ApiInformation) texts html_path, parent.ue_type = none →
        collector_cpp_nohref texts parent html_path =
          texts.map (fun txt => (txt, html_path ++ "#" ++ txt))) := by
  constructor
  · intro xml info hok
    cases hx : xml.h1TitleTexts with
    | nil =>
      simp [collect_api_information, collect_api_name_and_syntax, hx] at hok
    | cons t ts =>
      simp only [collect_api_information, collect_api_name_and_syntax, hx] at hok
      cases hok with
      | refl =>
        refine ⟨classify_loop_ue_isSome _ _ _, ?_⟩
        exact collector_cpp_nohref_of_isSome _ (classify_loop_ue_isSome _ _ _)
  · intro parent texts html_path hp
    exact collector_cpp_nohref_of_none parent hp texts html_path

theorem C3_witness :
    collector_cpp_nohref ["x", "y"] ⟨some "Foo", some "object", some "Object"⟩
        "q.html" = [("Foo.x", "q.html#Foo.x"), ("Foo.y", "q.html#Foo.y")] := by
  rw [(C3_nohref_qualified_name.1 ⟨["Foo"], []⟩
      ⟨some "Foo", some "object", some "Object"⟩ (by decide)).2 ["x", "y"] "q.html"]
  decide

/-- C7: the docset aggregation is the union of the per-file entry lists
with duplicate (name, kind, path) triples collapsed: membership is exactly
membership in some per-file list, no two distinct aggregated entries share
the triple, aggregating the input twice or re-aggregating the output
changes nothing, and any permutation of the per-file results yields the
same set. -/
theorem C7_aggregate_dedup :
    (∀ (results : List (List Entry)) e,
        e ∈ process_cpp_docset results ↔ ∃ l ∈ results, e ∈ l)
    ∧ (∀ (results : List (List Entry)),
        ∀ e₁ ∈ process_cpp_docset results, ∀ e₂ ∈ process_cpp_docset results,
          e₁.name = e₂.name → e₁.type = e₂.type → e₁.path = e₂.path → e₁ = e₂)
    ∧ (∀ (results : List (List Entry)),
        process_cpp_docset (results ++ results) = process_cpp_docset results)
    ∧ (∀ (results : List (List Entry)),
        process_cpp_docset [(process_cpp_docset results).toList] =
          process_cpp_docset results)
    ∧ (∀ (results results' : List (List Entry)), results.Perm results' →
        process_cpp_docset results = process_cpp_docset results') := by
  refine ⟨?_, ?_, ?_, ?_, ?_⟩
  · intro results e
    simp [process_cpp_docset, List.mem_flatten]
  · intro results e₁ h₁ e₂ h₂ hn ht hp
    cases e₁
    cases e₂
    simp_all
  · intro results
    simp [process_cpp_docset, List.flatten_append, List.toFinset_append]
  · intro results
    simp [process_cpp_docset]
  · intro results results' hperm
    exact List.toFinset_eq_of_perm _ _ hperm.flatten

theorem C7_witness :
    process_cpp_docset [[⟨"a", "p", "t"⟩], [⟨"b", "q", "u"⟩]] =
      process_cpp_docset [[⟨"b", "q", "u"⟩], [⟨"a", "p", "t"⟩]] :=
  C7_aggregate_dedup.2.2.2.2 _ _ (by decide)

theorem C9_witness :
    (⟨some "Foo", some "object", some "Object"⟩ : ApiInformation).name.isSome =
        true
      ∧ (⟨some "Foo", some "object", some "Object"⟩ : ApiInformation).name ≠
          some "" := by
  have h := (C9_classifier_name_present ⟨["Foo"], []⟩).2
    ⟨some "Foo", some "object", some "Object"⟩ (by decide)
  exact ⟨h.1, h.2 (by decide)⟩
